import Mathlib

/-!
Shallow embedding of the WeightMonitor program (src/weight.py) and proofs of
the specification claims about it.

Conventions of the embedding:
* Python strings are modelled as `List Char`; the handful of string
  operations the program uses (`in`, `split`, `replace`, `strip`, `float`)
  are defined below with Python semantics.
* Python floats are modelled as exact rationals `ℚ`; the numeric literals
  appearing in the program (0.5, 12.34, ...) are exact decimals, so the
  comparisons the program performs are faithfully reproduced.
* The serial hardware is an oracle environment: each call to the
  pyserial `readline` consumes one `RawEvent` (an I/O error, or a line of
  text; an exhausted event list models the 1-second timeout, which makes
  `readline` return an empty line), and each call to `Scale.connect`
  consumes one `Bool` saying whether any of its attempts succeeded.
* Exceptions are modelled by the explicit control flow of the functions
  (the program catches them broadly and never lets them escape).
-/

namespace WeightMonitor

/-! ### Python string primitives over `List Char` -/

/-- Tests whether the second list starts with the first (helper for the
Python substring test). -/
def startsWithSeq : List Char → List Char → Bool
  | [], _ => true
  | _ :: _, [] => false
  | p :: ps, c :: cs => p == c && startsWithSeq ps cs

/-- Python substring containment: the semantics of the expression
pat in s. -/
def containsSub (pat : List Char) : List Char → Bool
  | [] => pat.isEmpty
  | c :: rest => startsWithSeq pat (c :: rest) || containsSub pat rest

/-- Python s.split with a comma separator: always returns at least one
(possibly empty) field. -/
def splitOnComma : List Char → List (List Char)
  | [] => [[]]
  | ',' :: rest => [] :: splitOnComma rest
  | c :: rest =>
      match splitOnComma rest with
      | [] => [[c]]
      | f :: fs => (c :: f) :: fs

/-- Python line.split(sep)[-1]: the last comma-delimited field. -/
def lastField (l : List Char) : List Char := (splitOnComma l).getLastD []

/-- Python s.replace applied to the two-character pattern kg with an empty
replacement: removes every occurrence, scanning left to right without
overlap. -/
def removeKg : List Char → List Char
  | 'k' :: 'g' :: rest => removeKg rest
  | c :: rest => c :: removeKg rest
  | [] => []

/-- Python s.replace applied to the one-character pattern plus with an empty
replacement: drops every plus sign. -/
def removePlus (l : List Char) : List Char := l.filter (fun c => !(c == '+'))

/-- Python s.strip(): removes leading and trailing whitespace. -/
def trimWs (l : List Char) : List Char :=
  ((l.dropWhile Char.isWhitespace).reverse.dropWhile Char.isWhitespace).reverse

/-! ### Python float parsing (decimal literals, exact rational semantics) -/

/-- Value of a list of decimal digit characters read left to right. -/
def digitsToNat (l : List Char) : ℕ :=
  l.foldl (fun acc c => 10 * acc + (c.toNat - 48)) 0

/-- Tests that every character is a decimal digit (vacuously true on the
empty list; callers guard non-emptiness). -/
def allDigits (l : List Char) : Bool := l.all Char.isDigit

/-- Splits a list at the first character satisfying the predicate; the
second component is present exactly when such a character occurs. -/
def splitAtChar (p : Char → Bool) : List Char → List Char × Option (List Char)
  | [] => ([], none)
  | c :: rest =>
      if p c then ([], some rest)
      else
        let r := splitAtChar p rest
        (c :: r.1, r.2)

/-- Consumes an optional leading sign; returns whether it was a minus and
the remainder. -/
def parseSign : List Char → Bool × List Char
  | '+' :: rest => (false, rest)
  | '-' :: rest => (true, rest)
  | l => (false, l)

/-- Parses an unsigned decimal mantissa: digits, optionally with one point,
with at least one digit overall — the mantissa grammar accepted by Python
float(). -/
def parseMantissa (l : List Char) : Option ℚ :=
  match splitAtChar (fun c => c == '.') l with
  | (ip, none) => if !ip.isEmpty && allDigits ip then some (digitsToNat ip : ℚ) else none
  | (ip, some fp) =>
      if (!ip.isEmpty || !fp.isEmpty) && allDigits ip && allDigits fp then
        some ((digitsToNat ip : ℚ) + (digitsToNat fp : ℚ) / 10 ^ fp.length)
      else none

/-- Parses a signed decimal exponent (the part after e or E). -/
def parseExp (l : List Char) : Option ℤ :=
  let s := parseSign l
  if !s.2.isEmpty && allDigits s.2 then
    some (if s.1 then -(digitsToNat s.2 : ℤ) else (digitsToNat s.2 : ℤ))
  else none

/-- Python float() on finite decimal literals (optional sign, decimal
mantissa, optional e/E exponent), returning an exact rational, or none
where Python raises ValueError. -/
def pyFloat (l : List Char) : Option ℚ :=
  let s := parseSign l
  match splitAtChar (fun c => c == 'e' || c == 'E') s.2 with
  | (mant, none) =>
      (parseMantissa mant).map (fun m => if s.1 then -m else m)
  | (mant, some ep) =>
      match parseMantissa mant, parseExp ep with
      | some m, some e => some ((if s.1 then -m else m) * (10 : ℚ) ^ e)
      | _, _ => none

/-! ### The Line Decoder (body of Scale.read_weight lines 115-117) -/

/-- Substring marker kg that makes a line a candidate reading. -/
def kgMark : List Char := ['k', 'g']

/-- Cleanup applied to the last comma field of a candidate line:
line.split(con)[-1].replace(kg,empty).replace(plus,empty).strip(). -/
def cleanField (l : List Char) : List Char :=
  trimWs (removePlus (removeKg (lastField l)))

/-- Line Decoder: returns the decoded weight of a raw line, or none
(no reading) when the line lacks the kg marker or its numeric field does
not parse. Matches the inline decode step of Scale.read_weight. -/
def decodeLine (l : List Char) : Option ℚ :=
  if containsSub kgMark l then pyFloat (cleanField l) else none

/-! ### Configuration constants (weight.py lines 16-26) -/

/-- Reconnect attempt cap (MAX_RECONNECT_ATTEMPTS = 5). -/
def MAX_RECONNECT_ATTEMPTS : ℕ := 5

/-- Validation threshold in kg (WEIGHT_VALIDATION_THRESHOLD = 0.5). -/
def WEIGHT_VALIDATION_THRESHOLD : ℚ := 0.5

/-- Validation retry count (MAX_VALIDATION_RETRIES = 10). -/
def MAX_VALIDATION_RETRIES : ℕ := 10

/-! ### Channel (Scale) controller state machine

The mutable fields of a Scale object. The pyserial handle is abstracted to
the boolean serialOpen (self.serial is None / not open versus open). -/

/-- Mutable state of one Scale object: self.serial (abstracted to whether an
open handle exists), self.failed, self.last_valid_weight. -/
structure ScaleState where
  serialOpen : Bool
  failed : Bool
  last_valid_weight : Option ℚ
  deriving DecidableEq

/-- One event observed by a readline call on the serial port: an I/O
exception, or a received line of text. An exhausted event list models the
read timeout, whose readline yields an empty line. -/
inductive RawEvent where
  | err : RawEvent
  | line : List Char → RawEvent
  deriving DecidableEq

/-- Result of a read call: the value returned, the state of the Scale
object afterwards, the unconsumed oracle environments, and how many times
Scale.connect was invoked during the call (each connect replaces the
serial handle). -/
structure ReadResult where
  value : Option ℚ
  state : ScaleState
  connEnv : List Bool
  readEnv : List RawEvent
  connects : ℕ
  deriving DecidableEq

/-- Scale.connect (lines 86-102): tries up to MAX_RECONNECT_ATTEMPTS times
to open the device. The oracle entry says whether any attempt succeeded;
on success the handle is replaced and failed cleared, on exhaustion the
handle is dropped and failed set. An empty oracle means no connection can
be established any more. -/
def connect (s : ScaleState) : List Bool → ScaleState × List Bool
  | [] => ({ s with serialOpen := false, failed := true }, [])
  | ok :: rest =>
      if ok then ({ s with serialOpen := true, failed := false }, rest)
      else ({ s with serialOpen := false, failed := true }, rest)

/-- Scale.read_weight (lines 104-123), fuel = remaining attempts of the
for-loop (max_attempts = 5). Each attempt: reconnect if the handle is
missing (continue if that fails); read one line; if it contains kg, parse
its last comma field — returning the weight on success and reconnecting on
a parse exception; an I/O error during the read also reconnects. Exhausting
all attempts returns none (no reading), never an error. -/
def read_weight_aux : ℕ → ScaleState → List Bool → List RawEvent → ℕ → ReadResult
  | 0, s, cE, rE, k => ⟨none, s, cE, rE, k⟩
  | n + 1, s, cE, rE, k =>
      let e : ScaleState × List Bool × ℕ :=
        if s.serialOpen then (s, cE, k)
        else
          let r := connect s cE
          (r.1, r.2, k + 1)
      if e.1.serialOpen = false then
        read_weight_aux n e.1 e.2.1 rE e.2.2
      else
        match rE with
        | [] => read_weight_aux n e.1 e.2.1 [] e.2.2
        | RawEvent.err :: rest =>
            let r := connect e.1 e.2.1
            read_weight_aux n r.1 r.2 rest (e.2.2 + 1)
        | RawEvent.line l :: rest =>
            if containsSub kgMark l then
              match pyFloat (cleanField l) with
              | some w => ⟨some w, e.1, e.2.1, rest, e.2.2⟩
              | none =>
                  let r := connect e.1 e.2.1
                  read_weight_aux n r.1 r.2 rest (e.2.2 + 1)
            else read_weight_aux n e.1 e.2.1 rest e.2.2

/-- Scale.read_weight with its default arguments (max_attempts = 5). -/
def read_weight (s : ScaleState) (cE : List Bool) (rE : List RawEvent) : ReadResult :=
  read_weight_aux 5 s cE rE 0

/-- Validation loop of Scale.get_validated_weight (lines 136-153), fuel =
remaining iterations of the for-loop (MAX_VALIDATION_RETRIES). L is the
baseline self.last_valid_weight on entry; read_weight never modifies that
field, so the comparison against self.last_valid_weight inside the loop is
always against L. Fuel exhaustion returns the baseline unchanged. -/
def validLoop : ℕ → ℚ → ScaleState → List Bool → List RawEvent → ℕ → ReadResult
  | 0, L, s, cE, rE, k => ⟨some L, s, cE, rE, k⟩
  | n + 1, L, s, cE, rE, k =>
      let r := read_weight s cE rE
      match r.value with
      | none => validLoop n L r.state r.connEnv r.readEnv (k + r.connects)
      | some w =>
          if |w - L| ≤ WEIGHT_VALIDATION_THRESHOLD then
            ⟨some w, { r.state with last_valid_weight := some w }, r.connEnv, r.readEnv,
              k + r.connects⟩
          else validLoop n L r.state r.connEnv r.readEnv (k + r.connects)

/-- Scale.get_validated_weight (lines 125-153): with no baseline, one raw
read accepted unconditionally and recorded; with a baseline, the validation
loop above. -/
def get_validated_weight (s : ScaleState) (cE : List Bool) (rE : List RawEvent) : ReadResult :=
  match s.last_valid_weight with
  | none =>
      let r := read_weight s cE rE
      match r.value with
      | some w => { r with state := { r.state with last_valid_weight := some w } }
      | none => r
  | some L => validLoop MAX_VALIDATION_RETRIES L s cE rE 0

/-! ### Poll Orchestrator (body of main, lines 239-257) -/

/-- Outcome of the per-channel block of the main loop: the weight slot
appended to the record, the updated last_weights entry, the Scale state
afterwards, and the unconsumed environments. -/
structure ChanResult where
  slot : Option ℚ
  lastw : Option ℚ
  state : ScaleState
  connEnv : List Bool
  readEnv : List RawEvent
  deriving DecidableEq

/-- Per-channel step of the main loop (lines 241-249): on a validated
reading, store it and refresh last_weights; otherwise substitute the
remembered last value and set the failed flag. -/
def processChannel (s : ScaleState) (lastw : Option ℚ) (cE : List Bool)
    (rE : List RawEvent) : ChanResult :=
  let r := get_validated_weight s cE rE
  match r.value with
  | some w => ⟨some w, some w, r.state, r.connEnv, r.readEnv⟩
  | none => ⟨lastw, lastw, { r.state with failed := true }, r.connEnv, r.readEnv⟩

/-- One configured channel as the main loop sees it: the Scale object, its
last_weights entry, and its private oracle environments (each scale owns
its own serial device). -/
structure Chan where
  state : ScaleState
  lastw : Option ℚ
  connEnv : List Bool
  readEnv : List RawEvent
  deriving DecidableEq

/-- One tick of the main loop over all channels in configured order
(lines 240-249): returns the weights list of the produced record and the
channels afterwards (leftover environments carry over to later ticks). -/
def tickChannels : List Chan → List (Option ℚ) × List Chan
  | [] => ([], [])
  | c :: cs =>
      let r := processChannel c.state c.lastw c.connEnv c.readEnv
      let rest := tickChannels cs
      (r.slot :: rest.1, Chan.mk r.state r.lastw r.connEnv r.readEnv :: rest.2)

/-- Fleet-recovery condition after a tick (line 255): any scale flagged
failed triggers the reboot command. -/
def rebootTriggered (cs : List Chan) : Bool := cs.any (fun c => c.state.failed)

/-! ### Firebase upload (lines 36-76 and 173-204) -/

/-- One push to the realtime database: the node path of the reference it
goes through, the timestamp field, and the weight fields (label index,
value) in insertion order. -/
structure Push where
  path : List Char
  timestamp : ℕ
  fields : List (ℕ × Option ℚ)
  deriving DecidableEq

/-- Node path of ref_304 (line 56): db.reference going to weights/12644. -/
def ref_304_path : List Char := "weights/12644".toList

/-- Node path of ref_303 (line 57): db.reference going to weights/12644. -/
def ref_303_path : List Char := "weights/12644".toList

/-- Python enumerate(ws, i): pairs each element with its label starting
at i. -/
def enumWeights : ℕ → List (Option ℚ) → List (ℕ × Option ℚ)
  | _, [] => []
  | i, w :: ws => (i, w) :: enumWeights (i + 1) ws

/-- upload_to_firebase (lines 173-204), successful path: data_304 carries
weight1..weight3 from weights[:3] and is pushed through ref_304; only when
more than three weight slots exist, data_303 carrying weights[2] as its
weight1 is pushed through ref_303. Timestamps are abstracted to a number;
retry-on-exception does not change what a successful upload pushes. -/
def upload_to_firebase (t : ℕ) (ws : List (Option ℚ)) : List Push :=
  Push.mk ref_304_path t (enumWeights 1 (ws.take 3)) ::
    (if 3 < ws.length then [Push.mk ref_303_path t [(1, ws.getD 2 none)]] else [])

/-! ### Scheduler (get_next_slot, lines 207-210)

Wall-clock instants are microseconds on an axis whose origin is a
midnight; datetime.replace(second=0, microsecond=0) truncates to the
minute and now.minute is the minute within the hour. -/

/-- Microseconds in one minute. -/
def usecPerMinute : ℕ := 60000000

/-- get_next_slot: (now + timedelta(minutes = 10)).replace(second = 0,
microsecond = 0) - timedelta(minutes = now.minute % 10). -/
def get_next_slot (t : ℕ) : ℕ :=
  (t + 10 * usecPerMinute) / usecPerMinute * usecPerMinute
    - t / usecPerMinute % 60 % 10 * usecPerMinute

/-- Sub-second part of an instant (datetime.microsecond). -/
def microsecondOfSecond (t : ℕ) : ℕ := t % 1000000

/-- Second within the minute (datetime.second). -/
def secondOfMinute (t : ℕ) : ℕ := t / 1000000 % 60

/-- Minute within the hour (datetime.minute). -/
def minuteOfHour (t : ℕ) : ℕ := t / usecPerMinute % 60

/-- Slot boundary in the sense of the spec: seconds and sub-seconds zero
and the minute a multiple of 10. -/
def IsSlotTime (t : ℕ) : Prop :=
  microsecondOfSecond t = 0 ∧ secondOfMinute t = 0 ∧ minuteOfHour t % 10 = 0

instance (t : ℕ) : Decidable (IsSlotTime t) := by
  unfold IsSlotTime; infer_instance

end WeightMonitor

namespace WeightMonitor

attribute [local semireducible] Rat.add Rat.sub Rat.mul Rat.inv Rat.ofScientific

/-! ### Helper lemmas -/

/-- Decoding success forces the kg marker to be present. -/
lemma decodeLine_kg {l : List Char} {w : ℚ} (h : decodeLine l = some w) :
    containsSub kgMark l = true := by
  by_contra hk
  rw [Bool.not_eq_true] at hk
  rw [decodeLine, hk] at h
  simp at h

/-- Decoding success gives the parse of the cleaned last field. -/
lemma decodeLine_parse {l : List Char} {w : ℚ} (h : decodeLine l = some w) :
    pyFloat (cleanField l) = some w := by
  rw [decodeLine, decodeLine_kg h] at h
  simpa using h

/-- With an open handle and a decodable first line, a raw read returns its
weight at once, leaving the state untouched and consuming one event. -/
lemma read_weight_open_line (s : ScaleState) (hs : s.serialOpen = true)
    {l : List Char} {w : ℚ} (hdec : decodeLine l = some w)
    (cE : List Bool) (rest : List RawEvent) :
    read_weight s cE (RawEvent.line l :: rest) = ⟨some w, s, cE, rest, 0⟩ := by
  rw [read_weight]
  show read_weight_aux (4 + 1) s cE (RawEvent.line l :: rest) 0 = _
  rw [read_weight_aux]
  simp [hs, decodeLine_kg hdec, decodeLine_parse hdec]

/-! ### Claims -/

/-- C2: for every raw input line, if the line contains kg and its trailing
comma-delimited numeric field is well-formed (after removing the kg suffix
and plus signs), the Line Decoder returns that field parsed as a float, with
ST,GS,+012.34kg yielding 12.34; a line without kg, or one whose numeric
field does not parse, yields no reading (none) rather than an error. -/
theorem c2_line_decoder (l : List Char) :
    (∀ q : ℚ, containsSub kgMark l = true → pyFloat (cleanField l) = some q →
        decodeLine l = some q) ∧
      (containsSub kgMark l = false → decodeLine l = none) ∧
      (pyFloat (cleanField l) = none → decodeLine l = none) ∧
      decodeLine "ST,GS,+012.34kg".toList = some (617 / 50) := by
  refine ⟨?_, ?_, ?_, by decide⟩
  · intro q hkg hp
    rw [decodeLine, hkg]
    simpa using hp
  · intro hkg
    rw [decodeLine, hkg]
    simp
  · intro hp
    rw [decodeLine, hp]
    simp

/-- Witness for C2 at the concrete lines ST,GS,+012.34kg (well-formed,
decodes to 12.34) and ST,GS (no kg marker, no reading). -/
theorem c2_line_decoder_witness :
    decodeLine "ST,GS,+012.34kg".toList = some (617 / 50) ∧
      decodeLine "ST,GS".toList = none :=
  ⟨(c2_line_decoder "ST,GS,+012.34kg".toList).1 (617 / 50) (by decide) (by decide),
    (c2_line_decoder "ST,GS".toList).2.1 (by decide)⟩

/-- C7: for every wall-clock instant, get_next_slot returns the smallest
instant strictly greater than now with seconds and sub-seconds zero and the
minute a multiple of 10; from 10:03:27 the next slot is 10:10:00, and from
exactly 10:10:00 it is 10:20:00. -/
theorem c7_next_slot (t : ℕ) :
    t < get_next_slot t ∧ IsSlotTime (get_next_slot t) ∧
      (∀ u, t < u → IsSlotTime u → get_next_slot t ≤ u) ∧
      get_next_slot 36207000000 = 36600000000 ∧
      get_next_slot 36600000000 = 37200000000 := by
  have key : get_next_slot t = 600000000 * (t / 600000000 + 1) := by
    rw [get_next_slot, usecPerMinute]
    omega
  have slotIff : ∀ u, IsSlotTime u ↔ u % 600000000 = 0 := by
    intro u
    rw [IsSlotTime, microsecondOfSecond, secondOfMinute, minuteOfHour, usecPerMinute]
    omega
  refine ⟨?_, ?_, ?_, by decide, by decide⟩
  · rw [key]; omega
  · rw [slotIff, key]; omega
  · intro u hu hslot
    rw [key]
    rw [slotIff] at hslot
    omega

/-- Witness for C7 at now 10:03:27: the slot 10:10:00 is strictly later, is
a slot boundary, and get_next_slot does not overshoot it. -/
theorem c7_next_slot_witness :
    (36207000000 : ℕ) < 36600000000 ∧ IsSlotTime 36600000000 ∧
      get_next_slot 36207000000 ≤ 36600000000 :=
  ⟨by decide, by decide,
    (c7_next_slot 36207000000).2.2.1 36600000000 (by decide) (by decide)⟩

/-- C8: for every channel with no baseline, the first successful raw read
is accepted unconditionally — whatever its magnitude — returned, and
recorded as the new baseline. -/
theorem c8_first_read_unconditional (w : ℚ) (f : Bool) (cE : List Bool)
    (l : List Char) (rest : List RawEvent) (hdec : decodeLine l = some w) :
    get_validated_weight ⟨true, f, none⟩ cE (RawEvent.line l :: rest) =
      ⟨some w, ⟨true, f, some w⟩, cE, rest, 0⟩ := by
  rw [get_validated_weight]
  simp [read_weight_open_line ⟨true, f, none⟩ rfl hdec cE rest]

/-- Witness for C8: a fresh channel accepts a first reading of 99999.5 kg
unconditionally and records it as the baseline. -/
theorem c8_first_read_unconditional_witness :
    get_validated_weight ⟨true, false, none⟩ []
        [RawEvent.line "99999.5kg".toList] =
      ⟨some (199999 / 2), ⟨true, false, some (199999 / 2)⟩, [], [], 0⟩ :=
  c8_first_read_unconditional (199999 / 2) false [] "99999.5kg".toList [] (by decide)

/-- C9: the two upload destinations are the same database node: both
references are created from the identical path weights/12644, so every push
of an uploaded record — including the second logical destination — lands on
the same node as the first. -/
theorem c9_same_node (t : ℕ) (ws : List (Option ℚ)) :
    ref_304_path = ref_303_path ∧
      ∀ p ∈ upload_to_firebase t ws, p.path = ref_304_path := by
  refine ⟨rfl, ?_⟩
  intro p hp
  rw [upload_to_firebase] at hp
  rcases List.mem_cons.mp hp with h | h
  · rw [h]
  · by_cases hlen : 3 < ws.length
    · rw [if_pos hlen] at h
      rcases List.mem_singleton.mp h with rfl
      rfl
    · rw [if_neg hlen] at h
      simp at h

/-- Witness for C9 on a four-channel record: the second push (through
ref_303) lands on the node of ref_304. -/
theorem c9_same_node_witness :
    ref_304_path = ref_303_path ∧
      (Push.mk ref_303_path 0 [(1, (some 3 : Option ℚ))]).path = ref_304_path :=
  ⟨(c9_same_node 0 []).1,
    (c9_same_node 0 [some 1, some 2, some 3, some 4]).2
      (Push.mk ref_303_path 0 [(1, some 3)]) (by decide)⟩

/-- C10: there is a line carrying the kg marker whose numeric field is
malformed, for which the decode failure is caught inside read_weight and
triggers a reconnect before the next attempt: on the trace below the
malformed line ST,GS,+0..12kg consumes one connect (the connects counter of
the result is 1) and the serial connection is replaced, whereas a kg-less
line ST,GS consumes none (counter 0 and connect oracle untouched). -/
theorem c10_decode_failure_reconnects :
    containsSub kgMark "ST,GS,+0..12kg".toList = true ∧
      pyFloat (cleanField "ST,GS,+0..12kg".toList) = none ∧
      read_weight ⟨true, false, none⟩ [true]
          [RawEvent.line "ST,GS,+0..12kg".toList, RawEvent.line "ST,GS,+012.34kg".toList] =
        ⟨some (617 / 50), ⟨true, false, none⟩, [], [], 1⟩ ∧
      read_weight ⟨true, false, none⟩ [true]
          [RawEvent.line "ST,GS".toList, RawEvent.line "ST,GS,+012.34kg".toList] =
        ⟨some (617 / 50), ⟨true, false, none⟩, [true], [], 0⟩ := by decide

/-- C5: with an existing baseline L, a successful raw reading w is accepted
— returned and stored as the new baseline — when |w - L| is within the
0.5 kg threshold, and rejected with another raw read attempted (one of the
10 validation attempts spent) when it is outside. -/
theorem c5_threshold_gate (L w : ℚ) (f : Bool) (cE : List Bool) (l : List Char)
    (rest : List RawEvent) (hdec : decodeLine l = some w) :
    (|w - L| ≤ WEIGHT_VALIDATION_THRESHOLD →
        get_validated_weight ⟨true, f, some L⟩ cE (RawEvent.line l :: rest) =
          ⟨some w, ⟨true, f, some w⟩, cE, rest, 0⟩) ∧
      (¬ |w - L| ≤ WEIGHT_VALIDATION_THRESHOLD →
        get_validated_weight ⟨true, f, some L⟩ cE (RawEvent.line l :: rest) =
          validLoop (MAX_VALIDATION_RETRIES - 1) L ⟨true, f, some L⟩ cE rest 0) := by
  have hstep : get_validated_weight ⟨true, f, some L⟩ cE (RawEvent.line l :: rest) =
      validLoop (9 + 1) L ⟨true, f, some L⟩ cE (RawEvent.line l :: rest) 0 := rfl
  constructor <;> intro h
  · rw [hstep, validLoop]
    simp [read_weight_open_line ⟨true, f, some L⟩ rfl hdec cE rest, h]
  · rw [hstep, validLoop]
    simp [read_weight_open_line ⟨true, f, some L⟩ rfl hdec cE rest, h]
    rfl

/-- Witness for C5 with baseline 10.0: a reading of 10.3 is accepted and
becomes the new baseline, while a reading of 11.0 is rejected and the loop
moves on to another raw read. -/
theorem c5_threshold_gate_witness :
    get_validated_weight ⟨true, false, some 10⟩ [] [RawEvent.line "10.3kg".toList] =
        ⟨some (103 / 10), ⟨true, false, some (103 / 10)⟩, [], [], 0⟩ ∧
      get_validated_weight ⟨true, false, some 10⟩ []
          [RawEvent.line "11.0kg".toList, RawEvent.line "10.3kg".toList] =
        validLoop 9 10 ⟨true, false, some 10⟩ [] [RawEvent.line "10.3kg".toList] 0 :=
  ⟨(c5_threshold_gate 10 (103 / 10) false [] "10.3kg".toList [] (by decide)).1 (by decide),
    (c5_threshold_gate 10 11 false [] "11.0kg".toList [RawEvent.line "10.3kg".toList]
      (by decide)).2 (by decide)⟩

/-- Rejection run: when every line of the environment decodes to a reading
outside the threshold around L, the validation loop consumes them all and
falls back to L, leaving the scale state untouched. -/
lemma validLoop_reject_all (L : ℚ) (f : Bool) (cE : List Bool) (ls : List (List Char))
    (rest : List RawEvent) (k : ℕ)
    (h : ∀ l ∈ ls, ∃ w, decodeLine l = some w ∧ ¬ |w - L| ≤ WEIGHT_VALIDATION_THRESHOLD) :
    validLoop ls.length L ⟨true, f, some L⟩ cE (ls.map RawEvent.line ++ rest) k =
      ⟨some L, ⟨true, f, some L⟩, cE, rest, k⟩ := by
  induction ls generalizing k with
  | nil => rfl
  | cons l ls ih =>
      obtain ⟨w, hdec, hw⟩ := h l (by simp)
      show validLoop (ls.length + 1) L _ _ (RawEvent.line l :: (ls.map RawEvent.line ++ rest)) _ = _
      rw [validLoop]
      simp only [read_weight_open_line ⟨true, f, some L⟩ rfl hdec cE
        (ls.map RawEvent.line ++ rest), hw, if_false, Nat.add_zero]
      exact ih k (fun x hx => h x (List.mem_cons_of_mem l hx))

/-- C6: with an existing baseline L, when all 10 validation retries are
exhausted without an acceptable reading, the validated read returns the
previous baseline L — never no reading — and the stored last_valid_weight
field is unchanged by the call. -/
theorem c6_exhausted_fallback (L : ℚ) (f : Bool) (cE : List Bool)
    (ls : List (List Char)) (rest : List RawEvent)
    (hlen : ls.length = MAX_VALIDATION_RETRIES)
    (h : ∀ l ∈ ls, ∃ w, decodeLine l = some w ∧ ¬ |w - L| ≤ WEIGHT_VALIDATION_THRESHOLD) :
    get_validated_weight ⟨true, f, some L⟩ cE (ls.map RawEvent.line ++ rest) =
      ⟨some L, ⟨true, f, some L⟩, cE, rest, 0⟩ := by
  have hgv : get_validated_weight ⟨true, f, some L⟩ cE (ls.map RawEvent.line ++ rest) =
      validLoop MAX_VALIDATION_RETRIES L ⟨true, f, some L⟩ cE
        (ls.map RawEvent.line ++ rest) 0 := rfl
  rw [hgv, ← hlen]
  exact validLoop_reject_all L f cE ls rest 0 h

/-- Witness for C6: baseline 10.0 and ten readings of 11.0 (all out of
band) return the original 10.0 with the stored baseline intact. -/
theorem c6_exhausted_fallback_witness :
    get_validated_weight ⟨true, false, some 10⟩ []
        ((List.replicate 10 "11.0kg".toList).map RawEvent.line ++ []) =
      ⟨some 10, ⟨true, false, some 10⟩, [], [], 0⟩ :=
  c6_exhausted_fallback 10 false [] (List.replicate 10 "11.0kg".toList) [] (by decide)
    (fun l hl => by
      rw [List.eq_of_mem_replicate hl]
      exact ⟨11, by decide, by decide⟩)

/-- C3 counterexample: a channel whose serial handle is open but whose
failed flag is still set from an earlier tick takes a successful validated
reading of 10.2 against baseline 10.0, yet after the orchestrator processes
it the failed flag is still true — the main loop never clears the flag on
success, so the claim as stated is false. -/
theorem c3_counterexample :
    (get_validated_weight ⟨true, true, some 10⟩ []
        [RawEvent.line "10.2kg".toList]).value = some (51 / 5) ∧
      (processChannel ⟨true, true, some 10⟩ none []
        [RawEvent.line "10.2kg".toList]).state.failed = true := by decide

/-- C3 amended: when the validated read succeeds, the orchestrator stores
the value and refreshes its remembered last value, but leaves the channel
state — in particular the failed flag — exactly as the validated read left
it; only a successful connect inside the Channel Controller clears it. -/
theorem c3_success_keeps_flag (s : ScaleState) (lastw : Option ℚ) (cE : List Bool)
    (rE : List RawEvent) (w : ℚ)
    (h : (get_validated_weight s cE rE).value = some w) :
    (processChannel s lastw cE rE).slot = some w ∧
      (processChannel s lastw cE rE).lastw = some w ∧
      (processChannel s lastw cE rE).state = (get_validated_weight s cE rE).state := by
  simp [processChannel, h]

/-- Witness for C3 amended: a successful 10.3 reading against baseline 10.0
is stored and remembered, with the channel state as the read left it. -/
theorem c3_success_keeps_flag_witness :
    (processChannel ⟨true, false, some 10⟩ none []
        [RawEvent.line "10.3kg".toList]).slot = some (103 / 10) ∧
      (processChannel ⟨true, false, some 10⟩ none []
        [RawEvent.line "10.3kg".toList]).lastw = some (103 / 10) ∧
      (processChannel ⟨true, false, some 10⟩ none []
          [RawEvent.line "10.3kg".toList]).state =
        (get_validated_weight ⟨true, false, some 10⟩ []
          [RawEvent.line "10.3kg".toList]).state :=
  c3_success_keeps_flag ⟨true, false, some 10⟩ none [] [RawEvent.line "10.3kg".toList]
    (103 / 10) (by decide)

/-- On every branch of the per-channel step, the slot appended to the
record equals the updated last_weights entry. -/
lemma processChannel_slot_eq_lastw (s : ScaleState) (lastw : Option ℚ) (cE : List Bool)
    (rE : List RawEvent) :
    (processChannel s lastw cE rE).slot = (processChannel s lastw cE rE).lastw := by
  simp only [processChannel]
  cases (get_validated_weight s cE rE).value <;> rfl

/-- Length of the weights list produced by one tick. -/
lemma tick_slots_length (cs : List Chan) : (tickChannels cs).1.length = cs.length := by
  induction cs with
  | nil => rfl
  | cons c cs ih => simp [tickChannels, ih]

/-- Length of the channel list produced by one tick. -/
lemma tick_chans_length (cs : List Chan) : (tickChannels cs).2.length = cs.length := by
  induction cs with
  | nil => rfl
  | cons c cs ih => simp [tickChannels, ih]

/-- Slot i of a tick's record is the slot the per-channel step produced for
configured channel i. -/
lemma tick_slots_get (cs : List Chan) (i : ℕ) (h1 : i < (tickChannels cs).1.length)
    (hc : i < cs.length) :
    (tickChannels cs).1.get ⟨i, h1⟩ =
      (processChannel (cs.get ⟨i, hc⟩).state (cs.get ⟨i, hc⟩).lastw
        (cs.get ⟨i, hc⟩).connEnv (cs.get ⟨i, hc⟩).readEnv).slot := by
  induction cs generalizing i with
  | nil => exact absurd hc (Nat.not_lt_zero i)
  | cons c cs ih =>
      cases i with
      | zero => rfl
      | succ i =>
          exact ih i (by rw [tick_slots_length]; exact Nat.lt_of_succ_lt_succ hc)
            (Nat.lt_of_succ_lt_succ hc)

/-- Last-successful memory of channel i after a tick is the lastw the
per-channel step produced for configured channel i. -/
lemma tick_chans_get_lastw (cs : List Chan) (i : ℕ)
    (h2 : i < (tickChannels cs).2.length) (hc : i < cs.length) :
    ((tickChannels cs).2.get ⟨i, h2⟩).lastw =
      (processChannel (cs.get ⟨i, hc⟩).state (cs.get ⟨i, hc⟩).lastw
        (cs.get ⟨i, hc⟩).connEnv (cs.get ⟨i, hc⟩).readEnv).lastw := by
  induction cs generalizing i with
  | nil => exact absurd hc (Nat.not_lt_zero i)
  | cons c cs ih =>
      cases i with
      | zero => rfl
      | succ i =>
          exact ih i (by rw [tick_chans_length]; exact Nat.lt_of_succ_lt_succ hc)
            (Nat.lt_of_succ_lt_succ hc)

/-- C4 counterexample: a single channel that never connects produces a
record with a missing (none) slot on the first tick and again on the second
tick — so a missing slot is not confined to the very first tick, refuting
the claim as stated. -/
theorem c4_counterexample :
    (tickChannels [Chan.mk ⟨false, false, none⟩ none [] []]).1 = [none] ∧
      (tickChannels (tickChannels [Chan.mk ⟨false, false, none⟩ none [] []]).2).1 =
        [none] := by decide

/-- C4 amended: on every tick the record has exactly one weight slot per
configured channel, slot i coming from channel i in configured order, and a
slot is none exactly when that channel has still never produced a reading
by the end of this tick (its remembered last-successful value is absent). -/
theorem c4_record_shape (cs : List Chan) :
    (tickChannels cs).1.length = cs.length ∧
      (∀ i (h1 : i < (tickChannels cs).1.length) (hc : i < cs.length),
        (tickChannels cs).1.get ⟨i, h1⟩ =
          (processChannel (cs.get ⟨i, hc⟩).state (cs.get ⟨i, hc⟩).lastw
            (cs.get ⟨i, hc⟩).connEnv (cs.get ⟨i, hc⟩).readEnv).slot) ∧
      (∀ i (h1 : i < (tickChannels cs).1.length) (h2 : i < (tickChannels cs).2.length),
        ((tickChannels cs).1.get ⟨i, h1⟩ = none ↔
          ((tickChannels cs).2.get ⟨i, h2⟩).lastw = none)) := by
  refine ⟨tick_slots_length cs, tick_slots_get cs, ?_⟩
  intro i h1 h2
  have hc : i < cs.length := by rw [← tick_slots_length cs]; exact h1
  rw [tick_slots_get cs i h1 hc, tick_chans_get_lastw cs i h2 hc,
    processChannel_slot_eq_lastw]

/-- Witness for C4 amended on a one-channel fleet with a dead device: the
record has one slot, and that slot is missing exactly as the channel has
never produced a reading. -/
theorem c4_record_shape_witness :
    (tickChannels [Chan.mk ⟨false, false, none⟩ none [] []]).1.length = 1 ∧
      ((tickChannels [Chan.mk ⟨false, false, none⟩ none [] []]).1.get ⟨0, by decide⟩ =
          none ↔
        ((tickChannels [Chan.mk ⟨false, false, none⟩ none [] []]).2.get
          ⟨0, by decide⟩).lastw = none) :=
  ⟨(c4_record_shape [Chan.mk ⟨false, false, none⟩ none [] []]).1,
    (c4_record_shape [Chan.mk ⟨false, false, none⟩ none [] []]).2.2 0 (by decide)
      (by decide)⟩

/-- C1 counterexample: with four weight slots 1, 2, 3, 4 the second upload
record carries weight1 = 3 — the third channel's value — and not the fourth
channel's value 4, refuting the claim as stated. -/
theorem c1_counterexample :
    upload_to_firebase 0 [some 1, some 2, some 3, some 4] =
      [Push.mk ref_304_path 0 [(1, some 1), (2, some 2), (3, some 3)],
        Push.mk ref_303_path 0 [(1, some 3)]] ∧
      (some 3 : Option ℚ) ≠ some 4 := by decide

/-- C1 amended: for every uploaded record with more than three weight
slots, the first push carries the first three channel slots as
weight1..weight3, and the second push carries exactly the third channel's
value (the value in slot 3, index 2) as its weight1. -/
theorem c1_upload_split (t : ℕ) (ws : List (Option ℚ)) (h : 3 < ws.length) :
    ∃ p1 p2, upload_to_firebase t ws = [p1, p2] ∧
      p1.path = ref_304_path ∧
      p1.fields = [(1, ws.getD 0 none), (2, ws.getD 1 none), (3, ws.getD 2 none)] ∧
      p2.path = ref_303_path ∧ p2.fields = [(1, ws.getD 2 none)] := by
  rcases ws with _ | ⟨a, ws⟩
  · simp at h
  rcases ws with _ | ⟨b, ws⟩
  · simp at h
  rcases ws with _ | ⟨c, ws⟩
  · simp at h
  rcases ws with _ | ⟨d, ws⟩
  · simp at h
  rw [upload_to_firebase, if_pos h]
  exact ⟨_, _, rfl, rfl, rfl, rfl, rfl⟩

/-- Witness for C1 amended at the record with slots 1, 2, 3, 4. -/
theorem c1_upload_split_witness :
    ∃ p1 p2,
      upload_to_firebase 0 [some 1, some 2, some 3, some 4] = [p1, p2] ∧
        p1.path = ref_304_path ∧
        p1.fields = [(1, ([some 1, some 2, some 3, some 4].getD 0 none : Option ℚ)),
          (2, [some 1, some 2, some 3, some 4].getD 1 none),
          (3, [some 1, some 2, some 3, some 4].getD 2 none)] ∧
        p2.path = ref_303_path ∧
        p2.fields = [(1, [some 1, some 2, some 3, some 4].getD 2 none)] :=
  c1_upload_split 0 [some 1, some 2, some 3, some 4] (by decide)

end WeightMonitor
